import Mathlib

/-!
Shallow embedding of the `jpl3` package (files `src/jpl3/core.py` and
`src/jpl3/__init__.py`): a recorder that wraps matplotlib figures, assigns
stable path strings to tracked artists, serializes call arguments to
replayable text (externalizing bulk data to a per-session clipboard store),
and exports the accumulated command logs.

Modelling conventions used throughout:
* Python machine state is passed explicitly; code that can raise returns
  `Except PyErr _`.
* All recursive functions take an explicit fuel argument and are structurally
  recursive on it, so every definition is executable and kernel-reducible.
  Fuel bounds are chosen generously; theorems quantify over fuel where the
  fuel value is irrelevant.
* Python floats are modelled as exact decimal numbers (an integer mantissa
  with a base-10 exponent); `str()` on such a float agrees with CPython's
  shortest-repr output on every value appearing in the repository's tests
  and in the specification's examples (all are exact decimal literals).
-/

namespace JPL3

/-! ## Decimal rendering of natural numbers (Python `str(int)` / f-string `{i}`) -/

/-- One decimal digit character. -/
def digitChar : Nat → Char
  | 0 => '0' | 1 => '1' | 2 => '2' | 3 => '3' | 4 => '4'
  | 5 => '5' | 6 => '6' | 7 => '7' | 8 => '8' | _ => '9'

/-- Fueled decimal rendering: digits of `n`, most significant first. -/
def natCharsAux : Nat → Nat → List Char
  | 0, _ => []
  | fuel + 1, n =>
    if n < 10 then [digitChar n]
    else natCharsAux fuel (n / 10) ++ [digitChar (n % 10)]

/-- Decimal digits of `n` (the fuel `n + 1` always suffices). -/
def natChars (n : Nat) : List Char := natCharsAux (n + 1) n

/-- Decimal rendering of a natural number, as produced by Python `str`/f-strings. -/
def natStr (n : Nat) : String := String.mk (natChars n)

/-- Value of a digit character. -/
def digitVal (c : Char) : Nat :=
  match c with
  | '0' => 0 | '1' => 1 | '2' => 2 | '3' => 3 | '4' => 4
  | '5' => 5 | '6' => 6 | '7' => 7 | '8' => 8 | '9' => 9
  | _ => 0

/-- Value of a digit string, most significant first. -/
def digitsVal (cs : List Char) : Nat := cs.foldl (fun a c => a * 10 + digitVal c) 0

/-- Digit recognizer (the ten characters `digitChar` can produce). -/
def isDig (c : Char) : Bool :=
  c = '0' || c = '1' || c = '2' || c = '3' || c = '4' ||
  c = '5' || c = '6' || c = '7' || c = '8' || c = '9'

/-- Decimal rendering of an integer, as produced by Python `str`. -/
def intStr (m : Int) : String :=
  if m < 0 then "-" ++ natStr m.natAbs else natStr m.toNat

/-! ## Python floats as exact decimal numbers -/

/-- A Python float modelled as the exact decimal `man / 10 ^ dexp`.
All float values occurring in the repository's tests and in the spec's
examples are exact decimal literals, on which CPython's shortest-repr
`str()` prints exactly this decimal expansion. -/
structure PyFloat where
  man : Int
  dexp : Nat
deriving DecidableEq

/-- Strip trailing decimal zeros, keeping at least one fractional digit
(CPython prints `2.0`, not `2.`). Structural on the first argument. -/
def stripZeros : Nat → Nat → Nat → Nat × Nat
  | 0, n, e => (n, e)
  | f + 1, n, e =>
    if e > 1 && n % 10 == 0 then stripZeros f (n / 10) (e - 1) else (n, e)

/-- Left-pad a digit list with zeros to length `k`. -/
def padZeros (k : Nat) (cs : List Char) : List Char :=
  List.replicate (k - cs.length) '0' ++ cs

/-- Python `str()` of a float (exact-decimal model). -/
def floatStr (x : PyFloat) : String :=
  let sign := if x.man < 0 then "-" else ""
  let n0 := x.man.natAbs
  if x.dexp = 0 then sign ++ natStr n0 ++ ".0"
  else
    let (n, e) := stripZeros x.dexp n0 x.dexp
    let ip := n / 10 ^ e
    let fp := n % 10 ^ e
    sign ++ natStr ip ++ "." ++ String.mk (padZeros e (natChars fp))

/-! ## Python `repr` of strings -/

/-- Escape one character inside a Python string repr with quote char `q`. -/
def reprEsc (q : Char) (c : Char) : List Char :=
  if c = '\\' then ['\\', '\\']
  else if c = q then ['\\', q]
  else if c = '\n' then ['\\', 'n']
  else if c = '\r' then ['\\', 'r']
  else if c = '\t' then ['\\', 't']
  else [c]

/-- Python `repr` of a text value: single quotes preferred, double quotes
when the text contains a single quote but no double quote. -/
def pyReprStr (s : String) : String :=
  let sq : Char := '\x27'
  let dq : Char := '"'
  let q := if s.data.contains sq && !(s.data.contains dq) then dq else sq
  String.mk ([q] ++ s.data.foldr (fun c acc => reprEsc q c ++ acc) [] ++ [q])

/-! ## The tracked object graph

`core.py` walks a declared set of container relations:
`childs_tree = {DecoFigure: ["axes"], Axes: ["lines", "patches",
"collections", "images", "texts"]}`. Objects are identified by their Python
`id()`, modelled as a `Nat`. The live matplotlib object graph (`PlotWorld`)
is observed by the recorder only through each object's type and its named
child lists. -/

/-- The child-list names appearing in `DecoFigure.childs_tree`. -/
inductive ListName
  | axes | lines | patches | collections | images | texts
deriving DecidableEq

/-- The name as it appears in generated paths. -/
def ListName.str : ListName → String
  | .axes => "axes"
  | .lines => "lines"
  | .patches => "patches"
  | .collections => "collections"
  | .images => "images"
  | .texts => "texts"

/-- The exact type of a tracked object, as used by the `type(obj) in
self.childs_tree` test. -/
inductive ObjKind
  | fig | axesK | other
deriving DecidableEq

/-- `DecoFigure.childs_tree`: the declared traversable relations per type. -/
def childsTree : ObjKind → List ListName
  | .fig => [.axes]
  | .axesK => [.lines, .patches, .collections, .images, .texts]
  | .other => []

/-- One object of the matplotlib object graph: its exact type and its named
child lists (`getattr(obj, child_list_name)`; a missing attribute reads as
the empty list, matching the silently-skipped `AttributeError` branch). -/
structure PWObj where
  kind : ObjKind
  childs : List (ListName × List Nat)
deriving DecidableEq

/-- The live object graph, keyed by object identity. -/
structure PlotWorld where
  objs : List (Nat × PWObj)
deriving DecidableEq

def findAssoc {α : Type} : List (Nat × α) → Nat → Option α
  | [], _ => none
  | (k, v) :: rest, i => if k = i then some v else findAssoc rest i

def findLn {α : Type} : List (ListName × α) → ListName → Option α
  | [], _ => none
  | (k, v) :: rest, i => if k = i then some v else findLn rest i

/-- The exact type of object `i` (`other` when unknown to the graph). -/
def PlotWorld.kindOf (w : PlotWorld) (i : Nat) : ObjKind :=
  match findAssoc w.objs i with
  | some o => o.kind
  | none => .other

/-- `getattr(obj, child_list_name)`, observed as a list of object ids. -/
def PlotWorld.children (w : PlotWorld) (i : Nat) (ln : ListName) : List Nat :=
  match findAssoc w.objs i with
  | some o => (findLn o.childs ln).getD []
  | none => []

/-! ## The identity registry (`DecoFigure.artist_map`)

`artist_map` maps `id(obj)` to the object's path string. Entries are only
ever inserted when the key is absent, never overwritten or removed. -/

/-- The registry: object identity to path string. -/
def RegMap := List (Nat × String)

instance : DecidableEq RegMap := inferInstanceAs (DecidableEq (List (Nat × String)))

def regFind : RegMap → Nat → Option String
  | [], _ => none
  | (k, v) :: rest, i => if k = i then some v else regFind rest i

def regInsert (m : RegMap) (i : Nat) (h : String) : RegMap := (i, h) :: m

/-- Root path `f"figs[{fig_id}]"` (from `DecoFigure.__init__`). -/
def mkRoot (figId : Nat) : String := "figs[" ++ natStr figId ++ "]"

/-- Child path `f"{header}.{child_list_name}[{i}]"`. -/
def mkChild (header : String) (ln : ListName) (i : Nat) : String :=
  header ++ "." ++ ln.str ++ "[" ++ natStr i ++ "]"

/-- Call descriptor for the mutually recursive registration walk of
`DecoFigure._register_artists_recursive`: the entry point, the loop over
the declared child-list names, and the enumerated loop over one list. -/
inductive RegCall
  | node (i : Nat) (h : String)
  | lists (i : Nat) (h : String) (lns : List ListName)
  | items (h : String) (ln : ListName) (idx : Nat) (cs : List Nat)

/-- `DecoFigure._register_artists_recursive`, defunctionalized and fueled
(the Python recursion terminates through the `id(obj) in self.artist_map`
guard; any fuel at least the number of reachable objects is exact). -/
def regStep : Nat → PlotWorld → RegMap → RegCall → RegMap
  | 0, _, m, _ => m
  | f + 1, w, m, .node i h =>
    if (regFind m i).isSome then m
    else regStep f w (regInsert m i h) (.lists i h (childsTree (w.kindOf i)))
  | _ + 1, _, m, .lists _ _ [] => m
  | f + 1, w, m, .lists i h (ln :: rest) =>
    regStep f w (regStep f w m (.items h ln 0 (w.children i ln))) (.lists i h rest)
  | _ + 1, _, m, .items _ _ _ [] => m
  | f + 1, w, m, .items h ln idx (c :: cs) =>
    regStep f w (regStep f w m (.node c (mkChild h ln idx))) (.items h ln (idx + 1) cs)

/-- `self._register_artists_recursive(obj, header)`. -/
def register_artists_recursive (fuel : Nat) (w : PlotWorld) (m : RegMap)
    (i : Nat) (h : String) : RegMap :=
  regStep fuel w m (.node i h)

/-- The enumerated inner loop of `DecoFigure._scan_and_register_new_artists`:
children not yet in `artist_map` are registered recursively under
`f"{obj_header}.{child_list_name}[{i}]"`. -/
def scanItems (fuel : Nat) (w : PlotWorld) (h : String) (ln : ListName) :
    RegMap → Nat → List Nat → RegMap
  | m, _, [] => m
  | m, idx, c :: cs =>
    let m2 := if (regFind m c).isSome then m
      else register_artists_recursive fuel w m c (mkChild h ln idx)
    scanItems fuel w h ln m2 (idx + 1) cs

def scanLists (fuel : Nat) (w : PlotWorld) (i : Nat) (h : String) :
    RegMap → List ListName → RegMap
  | m, [] => m
  | m, ln :: rest => scanLists fuel w i h (scanItems fuel w h ln m 0 (w.children i ln)) rest

/-- `DecoFigure._scan_and_register_new_artists(obj)`: a no-op when the
object's header does not resolve to a truthy string. -/
def scan_new_artists (fuel : Nat) (w : PlotWorld) (m : RegMap) (i : Nat) : RegMap :=
  match regFind m i with
  | none => m
  | some h => if h = "" then m else scanLists fuel w i h m (childsTree (w.kindOf i))

/-! ## Session state (`core.JPLSession`) and module-level state

`core.JPLSession` owns `logs` (the main command log), `data_counter` (the
blob-key counter), a clipboard directory of written data files (the blob
store, modelled as `clipboard`), and `figures`. `core.py` additionally has a
module-level singleton `_session` accessed through `get_session()`, and
`__init__.py` keeps a list of active projects, each holding its own
`JPLSession`. `warns` models the process-wide `warnings` stream. -/

/-- The dtype family of a labeled series, as tested by
`pd.api.types.is_datetime64_any_dtype` / `is_categorical_dtype`. -/
inductive DTypeKind
  | dt64 | cat | plain
deriving DecidableEq

/-- One data file written to the session clipboard directory. Tabular
payloads carry an opaque content id standing for the delimited-text bytes
produced by `to_csv` (not needed by any claim). -/
inductive Payload
  | npyNum (vals : List PyFloat)
  | npyBool (mask : List Bool)
  | csvSeries (nm : Option String) (k : DTypeKind) (pid : Nat)
  | csvDf (pid : Nat)
  | csvDtIndex (pid : Nat)
  | csvCat (pid : Nat)
deriving DecidableEq

/-- Observable state of one `core.JPLSession`. -/
structure SessionSt where
  logs : List String
  data_counter : Nat
  clipboard : List (String × Payload)
  figures : List Nat
deriving DecidableEq

/-- `JPLSession.__init__`: empty logs, counter 0, empty clipboard. -/
def freshSession : SessionSt := ⟨[], 0, [], []⟩

/-- Module-level machine state: the object graph, the figure's registry, the
`core._session` singleton, the sessions of `__init__._active_projects`, and
the warning stream. -/
structure MState where
  world : PlotWorld
  reg : RegMap
  gsession : Option SessionSt
  projects : List (Nat × SessionSt)
  warns : List String
deriving DecidableEq

/-- The session `get_session()` would return (without the initialization
side effect). -/
def MState.curSession (st : MState) : SessionSt := st.gsession.getD freshSession

/-- The lazy initialization side effect of `get_session()`. -/
def initSession (st : MState) : MState := { st with gsession := some st.curSession }

def setSession (st : MState) (s : SessionSt) : MState := { st with gsession := some s }

/-- `JPLSession.get_new_filename(ext)`: `f"data_{self.data_counter}{ext}"`,
then the counter is incremented. -/
def newFilename (st : MState) (ext : String) : String × MState :=
  let s := st.curSession
  ("data_" ++ natStr s.data_counter ++ ext,
   setSession st { s with data_counter := s.data_counter + 1 })

/-- A successful `np.save` / `to_csv` to `get_filepath(nm)`. -/
def saveFile (st : MState) (nm : String) (p : Payload) : MState :=
  let s := st.curSession
  setSession st { s with clipboard := s.clipboard ++ [(nm, p)] }

/-- `get_session().add_log(command)`. -/
def addLogG (st : MState) (cmd : String) : MState :=
  let s := st.curSession
  setSession st { s with logs := s.logs ++ [cmd] }

/-- `warnings.warn(msg)`. -/
def warnPush (st : MState) (msg : String) : MState := { st with warns := st.warns ++ [msg] }

/-- The log of the module-level singleton session ( `[]` when the singleton
has not been created yet). -/
def glogs (st : MState) : List String := st.curSession.logs

/-! ## Python values seen by the serializer -/

/-- Values that can appear as arguments of an intercepted call. Artists are
identified by their object id; freshly created data values (numbers,
arrays, frames, ...) are never in `artist_map`, so only `artistV` can
resolve to a header. `objV` is an arbitrary object of an unrecognized type
whose `repr` either yields text or raises. -/
inductive PyValue
  | intV (n : Int)
  | floatV (x : PyFloat)
  | boolV (b : Bool)
  | noneV
  | strV (s : String)
  | dateV (y m d : Nat)
  | datetimeV (y mo d hh mi ss us : Nat)
  | timestampV (y mo d hh mi ss : Nat)
  | ndarrayNum (vals : List PyFloat)
  | ndarrayObj (xs : List PyValue)
  | maskedV (data : List PyFloat) (mask : List Bool)
  | seriesV (nm : Option String) (k : DTypeKind) (pid : Nat)
  | dataframeV (pid : Nat)
  | dtindexV (pid : Nat)
  | categoricalV (pid : Nat)
  | listV (xs : List PyValue)
  | tupleV (xs : List PyValue)
  | dictV (ps : List (PyValue × PyValue))
  | artistV (objId : Nat)
  | objV (tn : String) (rep : Except String String)

/-- `type(x).__name__`. -/
def typeName : PyValue → String
  | .intV _ => "int"
  | .floatV _ => "float"
  | .boolV _ => "bool"
  | .noneV => "NoneType"
  | .strV _ => "str"
  | .dateV .. => "date"
  | .datetimeV .. => "datetime"
  | .timestampV .. => "Timestamp"
  | .ndarrayNum _ => "ndarray"
  | .ndarrayObj _ => "ndarray"
  | .maskedV .. => "MaskedArray"
  | .seriesV .. => "Series"
  | .dataframeV _ => "DataFrame"
  | .dtindexV _ => "DatetimeIndex"
  | .categoricalV _ => "Categorical"
  | .listV _ => "list"
  | .tupleV _ => "tuple"
  | .dictV _ => "dict"
  | .artistV _ => "Artist"
  | .objV tn _ => tn

/-- `repr(datetime.date(y, m, d))`. -/
def pyDateRepr (y m d : Nat) : String :=
  "datetime.date(" ++ natStr y ++ ", " ++ natStr m ++ ", " ++ natStr d ++ ")"

/-- `repr(datetime.datetime(...))`: seconds shown when seconds or
microseconds are nonzero, microseconds shown when nonzero. -/
def pyDatetimeRepr (y mo d hh mi ss us : Nat) : String :=
  "datetime.datetime(" ++ natStr y ++ ", " ++ natStr mo ++ ", " ++ natStr d ++
    ", " ++ natStr hh ++ ", " ++ natStr mi ++
    (if ss ≠ 0 ∨ us ≠ 0 then ", " ++ natStr ss else "") ++
    (if us ≠ 0 then ", " ++ natStr us else "") ++ ")"

def pad2 (n : Nat) : String := if n < 10 then "0" ++ natStr n else natStr n

/-- `repr(pd.Timestamp(...))` (a `pd.Timestamp` is a `datetime.datetime`
subclass, so in `_emulate_args` it is answered by the `repr` branch). -/
def pyTimestampRepr (y mo d hh mi ss : Nat) : String :=
  "Timestamp(\x27" ++ natStr y ++ "-" ++ pad2 mo ++ "-" ++ pad2 d ++ " " ++
    pad2 hh ++ ":" ++ pad2 mi ++ ":" ++ pad2 ss ++ "\x27)"

/-- Default `repr` of a matplotlib artist (deterministic stand-in). -/
def artistRepr (i : Nat) : String := "<Artist " ++ natStr i ++ ">"

/-- The inert placeholder `f'"<unserializable object: {type(x).__name__}>"'`
returned by the top-level `except` of `_emulate_args`. -/
def unserPH (tn : String) : String := "\"<unserializable object: " ++ tn ++ ">\""

/-- The warning text of the top-level `except` of `_emulate_args`. -/
def warnMsgOf (tn e : String) : String :=
  "emulate_args failed for type <class \x27" ++ tn ++ "\x27>: " ++ e

/-- `np.save(..., allow_pickle=False)` on an object-dtype array. -/
def allowPickleErr : String := "Object arrays cannot be saved when allow_pickle=False"

/-- `{x.name!r}` in the datetime-series expression. -/
def pyReprName : Option String → String
  | none => "None"
  | some s => pyReprStr s

/-- `self._header(x) or ""`: the registry lookup by object identity; any
value that is not a tracked artist can never be in `artist_map`. -/
def headerD (st : MState) (v : PyValue) : String :=
  match v with
  | .artistV i => (regFind st.reg i).getD ""
  | _ => ""

def joinSep (sep : String) : List String → String
  | [] => ""
  | [s] => s
  | s :: rest => s ++ sep ++ joinSep sep rest

/-! ## The serializer `DecoFigure._emulate_args`

Defunctionalized into one fueled function `emuA`: call `.one v` serializes
one value (always answering a one-element list), `.many` serializes the
elements of a sequence, `.pairs` renders the `k: v` entries of a dict.
Every recursive call decreases the fuel by one; any fuel at least twice the
nesting size of the value is exact, and theorems quantify over the fuel.

The Python `try` block wraps the dispatch of one level only as far as
raising is concerned: the recursive calls on container elements are full
`_emulate_args` calls with their own `try`, so an exception can only arise
at the two raising points of the current level — `np.save` on an
object-dtype array, and the fallback `repr`. At those points the code below
inlines the `except Exception` handler of this level: warn, then answer the
inert placeholder for this value's type. -/

inductive ECall
  | one (v : PyValue)
  | many (xs : List PyValue)
  | pairs (ps : List (PyValue × PyValue))

/-- The `except Exception` handler of `_emulate_args`. -/
def unser (st : MState) (tn e : String) : List String × MState :=
  ([unserPH tn], warnPush st (warnMsgOf tn e))

def emuA : Nat → MState → ECall → List String × MState
  | 0, st, _ => ([], st)
  | f + 1, st, .one v =>
    -- session = get_session()
    let st := initSession st
    -- 1. registered artist: header = self._header(x); if header: return header
    let hd := headerD st v
    if hd ≠ "" then ([hd], st)
    else
      match v with
      -- 2. ma.MaskedArray: data and mask saved as two separate .npy blobs
      | .maskedV d msk =>
        let (dn, st) := newFilename st (".npy")
        let (mn, st) := newFilename st (".npy")
        let st := saveFile st dn (.npyNum d)
        let st := saveFile st mn (.npyBool msk)
        (["np.ma.MaskedArray(data=np.load(clipboard(\"" ++ dn ++
          "\")), mask=np.load(clipboard(\"" ++ mn ++ "\")))"], st)
      -- np.ndarray, numeric dtype
      | .ndarrayNum vals =>
        let (fn, st) := newFilename st (".npy")
        let st := saveFile st fn (.npyNum vals)
        (["np.load(clipboard(\"" ++ fn ++ "\"))"], st)
      -- np.ndarray, object dtype: np.save(..., allow_pickle=False) raises
      -- ValueError after the filename was allocated; caught here
      | .ndarrayObj _ =>
        let (_, st) := newFilename st (".npy")
        unser st (typeName (.ndarrayObj [])) allowPickleErr
      -- pd.Series, with dtype-dependent reconstruction hints
      | .seriesV nm k pid =>
        let (fn, st) := newFilename st (".csv")
        let st := saveFile st fn (.csvSeries nm k pid)
        (match k with
         | .dt64 => ["pd.read_csv(clipboard(\"" ++ fn ++
             "\"), index_col=0, header=0, parse_dates=[" ++ pyReprName nm ++
             "]).squeeze(\"columns\")"]
         | .cat => ["pd.read_csv(clipboard(\"" ++ fn ++
             "\"), index_col=0, header=0).squeeze(\"columns\").astype(\"category\")"]
         | .plain => ["pd.read_csv(clipboard(\"" ++ fn ++
             "\"), index_col=0, header=0).squeeze(\"columns\")"], st)
      -- pd.DataFrame
      | .dataframeV pid =>
        let (fn, st) := newFilename st (".csv")
        let st := saveFile st fn (.csvDf pid)
        (["pd.read_csv(clipboard(\"" ++ fn ++ "\"), index_col=0)"], st)
      -- pd.DatetimeIndex
      | .dtindexV pid =>
        let (fn, st) := newFilename st (".csv")
        let st := saveFile st fn (.csvDtIndex pid)
        (["pd.read_csv(clipboard(\"" ++ fn ++
          "\"), index_col=0, header=None, parse_dates=True).index"], st)
      -- pd.Categorical / pd.CategoricalIndex
      | .categoricalV pid =>
        let (fn, st) := newFilename st (".csv")
        let st := saveFile st fn (.csvCat pid)
        (["pd.read_csv(clipboard(\"" ++ fn ++
          "\"), header=0).squeeze(\"columns\").astype(\"category\")"], st)
      -- 3. basic types: str(x)
      | .intV n => ([intStr n], st)
      | .floatV x => ([floatStr x], st)
      | .boolV b => ([if b then "True" else "False"], st)
      | .noneV => (["None"], st)
      | .strV s => ([pyReprStr s], st)
      -- 4. replayable constructors: repr(x)
      | .datetimeV y mo d hh mi ss us => ([pyDatetimeRepr y mo d hh mi ss us], st)
      | .dateV y m d => ([pyDateRepr y m d], st)
      | .timestampV y mo d hh mi ss => ([pyTimestampRepr y mo d hh mi ss], st)
      -- 5. containers, recursing through full _emulate_args calls
      | .listV xs =>
        let (ss, st) := emuA f st (.many xs)
        (["[" ++ joinSep ", " ss ++ "]"], st)
      | .tupleV xs =>
        let (ss, st) := emuA f st (.many xs)
        let body := joinSep ", " ss
        (["(" ++ (if xs.length = 1 then body ++ "," else body) ++ ")"], st)
      | .dictV ps =>
        let (ss, st) := emuA f st (.pairs ps)
        (["\x7b" ++ joinSep ", " ss ++ "\x7d"], st)
      -- 6. fallback: repr(x); an exception here is caught by the handler
      | .artistV i => ([artistRepr i], st)
      | .objV tn rep =>
        match rep with
        | .ok s => ([s], st)
        | .error e => unser st tn e
  | _ + 1, st, .many [] => ([], st)
  | f + 1, st, .many (x :: xs) =>
    let (s, st1) := emuA f st (.one x)
    let (r, st2) := emuA f st1 (.many xs)
    (s ++ r, st2)
  | _ + 1, st, .pairs [] => ([], st)
  | f + 1, st, .pairs ((k, v) :: ps) =>
    let (sk, st1) := emuA f st (.one k)
    let (sv, st2) := emuA f st1 (.one v)
    let (r, st3) := emuA f st2 (.pairs ps)
    ((String.join sk ++ ": " ++ String.join sv) :: r, st3)

/-- `self._emulate_args(x)` at recursion budget `fuel`. -/
def emulate_args (fuel : Nat) (st : MState) (v : PyValue) : String × MState :=
  let (l, st') := emuA fuel st (.one v)
  (String.join l, st')

/-- Serialize positional arguments in order. -/
def emuArgsList (fuel : Nat) : MState → List PyValue → List String × MState
  | st, [] => ([], st)
  | st, x :: xs =>
    let (s, st1) := emulate_args fuel st x
    let (r, st2) := emuArgsList fuel st1 xs
    (s :: r, st2)

/-- Serialize keyword arguments in call order, as `f"{k} = {...}"`. -/
def emuKwargsList (fuel : Nat) : MState → List (String × PyValue) → List String × MState
  | st, [] => ([], st)
  | st, (k, v) :: xs =>
    let (s, st1) := emulate_args fuel st v
    let (r, st2) := emuKwargsList fuel st1 xs
    ((k ++ " = " ++ s) :: r, st2)

/-- `DecoFigure._save_emulate_command(function_name, *args, **kwargs)`:
positional arguments first, keyword arguments following in call order,
joined with `","`. -/
def save_emulate_command (fuel : Nat) (st : MState) (fname : String)
    (args : List PyValue) (kwargs : List (String × PyValue)) : String × MState :=
  let (a, st1) := emuArgsList fuel st args
  let (b, st2) := emuKwargsList fuel st1 kwargs
  (fname ++ "(" ++ joinSep "," (a ++ b) ++ ")", st2)

/-! ## `DecoFigure._safe_flatten` -/

inductive FCall
  | one (v : PyValue)
  | many (xs : List PyValue)
  | pairsK (ps : List (PyValue × PyValue))

/-- `_safe_flatten`, collecting the identities of the artists it yields.
Object-dtype arrays, lists, tuples and other non-text iterables are
flattened recursively; a dict iterates over its keys; everything else
yields nothing. -/
def flattenF : Nat → FCall → List Nat
  | 0, _ => []
  | _ + 1, .one (.artistV i) => [i]
  | f + 1, .one (.ndarrayObj xs) => flattenF f (.many xs)
  | _ + 1, .one (.ndarrayNum _) => []
  | _ + 1, .one (.maskedV _ _) => []
  | f + 1, .one (.listV xs) => flattenF f (.many xs)
  | f + 1, .one (.tupleV xs) => flattenF f (.many xs)
  | f + 1, .one (.dictV ps) => flattenF f (.pairsK ps)
  | _ + 1, .one _ => []
  | _ + 1, .many [] => []
  | f + 1, .many (x :: xs) => flattenF f (.one x) ++ flattenF f (.many xs)
  | _ + 1, .pairsK [] => []
  | f + 1, .pairsK ((k, _) :: ps) => flattenF f (.one k) ++ flattenF f (.pairsK ps)

def safe_flatten (fuel : Nat) (v : PyValue) : List Nat := flattenF fuel (.one v)

/-! ## The interception shim (`DecoFigure._print_function`) -/

/-- Fuel large enough for a registration walk over the whole object graph. -/
def scanFuel (w : PlotWorld) : Nat := 4 * w.objs.length + 8

/-- The logging decision of the shim. `callFrom` is `self.call_from`
(absolute path of the `__main__` script, or `"interactive"`); `callerFile`
is the filename of the immediate caller's stack frame (`none` when stack
inspection raised or found no caller frame, which falls into the silent
`except ... pass`). -/
def shouldLogB (abspath : String → String) (callFrom : String)
    (callerFile : Option String) : Bool :=
  if callFrom = "interactive" then true
  else
    match callerFile with
    | some fl => if fl ≠ "" ∧ abspath fl = callFrom then true else false
    | none => false

/-- The logging block of the shim: decide, resolve the path, serialize and
append to the singleton session's log. -/
def logPhase (fuel : Nat) (abspath : String → String) (callFrom : String)
    (callerFile : Option String) (name : String) (objId : Nat)
    (args : List PyValue) (kwargs : List (String × PyValue)) (st1 : MState) : MState :=
  if shouldLogB abspath callFrom callerFile then
    let hd := (regFind st1.reg objId).getD ""
    if hd ≠ "" then
      let (cmd, stA) := save_emulate_command fuel st1 (hd ++ "." ++ name) args kwargs
      addLogG stA cmd
    else st1
  else st1

/-- The rescan block of the shim: rescan the target object, then rescan
once more per artist found in the (non-`None`) result. -/
def scanPhase (fuel : Nat) (objId : Nat) (result : PyValue) (st2 : MState) : MState :=
  let st3 := { st2 with reg := scan_new_artists (scanFuel st2.world) st2.world st2.reg objId }
  match result with
  | .noneV => st3
  | r =>
    (safe_flatten fuel r).foldl
      (fun s _ => { s with reg := scan_new_artists (scanFuel s.world) s.world s.reg objId }) st3

/-- Everything the shim does after `result = fn(*args, **kwargs)` has been
evaluated: the logging block, then the rescan block. -/
def afterExec (fuel : Nat) (abspath : String → String) (callFrom : String)
    (callerFile : Option String) (name : String) (objId : Nat)
    (args : List PyValue) (kwargs : List (String × PyValue))
    (result : PyValue) (st1 : MState) : MState :=
  scanPhase fuel objId result
    (logPhase fuel abspath callFrom callerFile name objId args kwargs st1)

/-- The shim `decorate` produced by `DecoFigure._print_function(name, obj)`:
run the wrapped operation first, then decide logging, then rescan. -/
def decorate (fuel : Nat) (abspath : String → String) (callFrom : String)
    (callerFile : Option String) (name : String) (objId : Nat)
    (fn : List PyValue → List (String × PyValue) → PlotWorld → PyValue × PlotWorld)
    (args : List PyValue) (kwargs : List (String × PyValue))
    (st : MState) : PyValue × MState :=
  -- result = fn(*args, **kwargs)
  let r := fn args kwargs st.world
  let st1 : MState := { st with world := r.2 }
  (r.1, afterExec fuel abspath callFrom callerFile name objId args kwargs r.1 st1)

/-! ## The project layer (`__init__.py`)

`__init__.Project` holds its own `JPLSession` instance; `Project.figure`
creates `DecoFigure`s and `Project.save` exports the session. Both access
`JPLSession` members that `core.py` defines (or fails to define). -/

/-- Python exceptions surfaced by the project layer. -/
inductive PyErr
  | typeError (msg : String)
  | attributeError (msg : String)
deriving DecidableEq

/-- The members `core.JPLSession` actually defines (fields set in
`__init__` plus methods). -/
def jplSessionAttrs : List String :=
  ["logs", "data_counter", "temp_dir", "clipboard_dir", "figures",
   "add_log", "get_new_filename", "get_filepath", "cleanup"]

def sessionHasAttr (nm : String) : Bool := jplSessionAttrs.contains nm

/-- Python call binding for a signature `(self, fig_id, *args, **kwargs)`:
a keyword argument naming a parameter already filled positionally raises
`TypeError` (the only binding rule exercised here). -/
def bindCall (params : List String) (npos : Nat) (kwnames : List String) : Except PyErr Unit :=
  match kwnames.find? (fun k => (params.take npos).contains k) with
  | some k => .error (.typeError ("__init__() got multiple values for argument " ++ pyReprStr k))
  | none => .ok ()

/-- The named parameters of `DecoFigure.__init__` after `self`. -/
def decoFigureParams : List String := ["fig_id"]

/-- `self.session.add_log(command)` (the per-project session). -/
def addLogSess (s : SessionSt) (cmd : String) : SessionSt :=
  { s with logs := s.logs ++ [cmd] }

/-- One iteration of the loop in `Project.figure`. The created figure is
represented by its index. Session state at the moment of a raise is not
carried by the error (no claim needs it). -/
def figureIter (s : SessionSt) (figIdx : Nat) : Except PyErr (Nat × SessionSt) :=
  -- if fig_idx > 0: self.session.add_setup_log("add_figure()")
  match (if figIdx > 0 then
           (if sessionHasAttr ("add_setup_log") then Except.ok s
            else Except.error (PyErr.attributeError
              ("\x27JPLSession\x27 object has no attribute \x27add_setup_log\x27")))
         else Except.ok s) with
  | .error e => .error e
  | .ok s =>
    -- self.session.add_log(f"figs[{fig_idx}].clear()")
    let s := addLogSess s ("figs[" ++ natStr figIdx ++ "].clear()")
    -- fig = DecoFigure(self.session, fig_id=fig_idx): one positional
    -- argument (the session) plus the keyword fig_id
    match bindCall decoFigureParams 1 ["fig_id"] with
    | .error e => .error e
    | .ok _ => .ok (figIdx, { s with figures := s.figures ++ [figIdx] })

def figureLoop : SessionSt → Nat → Nat → Except PyErr (List Nat × SessionSt)
  | s, _, 0 => .ok ([], s)
  | s, figIdx, n + 1 =>
    match figureIter s figIdx with
    | .error e => .error e
    | .ok (fid, s1) =>
      match figureLoop s1 (figIdx + 1) n with
      | .error e => .error e
      | .ok (rest, s2) => .ok (fid :: rest, s2)

/-- `Project.figure(num_of_figure)`: starts numbering at
`len(self.session.figures)`. -/
def projectFigure (s : SessionSt) (num : Nat) : Except PyErr (List Nat × SessionSt) :=
  figureLoop s s.figures.length num

/-! ### `Project.save` -/

/-- One section of the exported descriptor. -/
structure Cell where
  code : String
  description : String
  expanded : Bool
deriving DecidableEq

/-- The exported descriptor `notebook.json`. -/
structure Notebook where
  version : String
  created : String
  cells : List Cell
  addons : List String
deriving DecidableEq

inductive ZipEntry
  | notebook (nb : Notebook)
  | npz (entries : List (String × Payload))
deriving DecidableEq

/-- The produced `.jem3` container: archive name plus members. -/
structure JemFile where
  filename : String
  members : List (String × ZipEntry)
deriving DecidableEq

/-- `__init__.LOADER_SCRIPT`, verbatim. -/
def LOADER_SCRIPT : String := "\nimport pandas as pd\nimport datetime\nimport numpy as np\nimport io\nfrom matplotlib.gridspec import GridSpec, GridSpecFromSubplotSpec\n\n# Load the single data archive\ntry:\n    # clipboard() is expected to return the path to the extracted file provided by JEMViewer3\n    _archive_path = clipboard(\"data.npz\")\n    _archive = np.load(_archive_path)\nexcept Exception as e:\n    print(f\"Warning: Could not load data.npz: \x7be\x7d\")\n    _archive = \x7b\x7d\n\ndef _load_npy(key):\n    return _archive[key]\n\ndef _load_csv(key, **kwargs):\n    # Extract bytes from uint8 array and read as CSV\n    bytes_data = _archive[key].tobytes()\n    return pd.read_csv(io.BytesIO(bytes_data), **kwargs)\n"

/-- The body of `Project.save` once `self.session.blobs`,
`self.session.setup_logs` and `self.session.logs` have been read: build
`data.npz` from the blob store, build the two descriptor sections, and zip
descriptor plus archive into one `.jem3` container. -/
def saveCore (logs setupLogs : List String) (blobs : List (String × Payload))
    (filename now : String) : JemFile :=
  let setupCode := LOADER_SCRIPT ++ "\n" ++ joinSep "\n" setupLogs
  let mainCode := joinSep "\n" logs
  let cells : List Cell :=
    [⟨setupCode, "JPL3 Setup & Initialization", false⟩,
     ⟨mainCode, "JPL3 Generated Operations", true⟩]
  let nb : Notebook := ⟨"3.0", now, cells, []⟩
  let fname := if filename.endsWith (".jem3") then filename else filename ++ ".jem3"
  ⟨fname, [("notebook.json", .notebook nb), ("clipboard/data.npz", .npz blobs)]⟩

/-- `self.session.blobs`: `core.JPLSession` has no such member. (The `.ok`
payload is what the attribute would hold if it existed; unreachable.) -/
def sessionGetBlobs (_s : SessionSt) : Except PyErr (List (String × Payload)) :=
  if sessionHasAttr ("blobs") then .ok []
  else .error (.attributeError ("\x27JPLSession\x27 object has no attribute \x27blobs\x27"))

/-- `self.session.setup_logs`: `core.JPLSession` has no such member. -/
def sessionGetSetupLogs (_s : SessionSt) : Except PyErr (List String) :=
  if sessionHasAttr ("setup_logs") then .ok []
  else .error (.attributeError ("\x27JPLSession\x27 object has no attribute \x27setup_logs\x27"))

/-- `Project.save(filename)` with creation timestamp `now`: step 1 builds
`data.npz` from `self.session.blobs`, step 2 builds `notebook.json` from
`self.session.setup_logs` and `self.session.logs`, step 3 zips both. -/
def projectSave (s : SessionSt) (filename now : String) : Except PyErr JemFile :=
  match sessionGetBlobs s with
  | .error e => .error e
  | .ok blobs =>
    match sessionGetSetupLogs s with
    | .error e => .error e
    | .ok setup => .ok (saveCore s.logs setup blobs filename now)

/-! ### `core.reset_session` / `JPLSession.cleanup` -/

/-- Environment outcome of `shutil.rmtree(self.temp_dir)`. -/
inductive RmOutcome
  | ok
  | fails (msg : String)
deriving DecidableEq

def rmtree : RmOutcome → Except String Unit
  | .ok => .ok ()
  | .fails m => .error m

/-- `JPLSession.cleanup`: `try: shutil.rmtree(...) except Exception as e:
warnings.warn(...)` — the failure is downgraded to a warning. -/
def sessionCleanup (warns : List String) (o : RmOutcome) : Except PyErr (List String) :=
  match rmtree o with
  | .ok _ => .ok warns
  | .error m => .ok (warns ++ ["Failed to cleanup temp dir: " ++ m])

/-- `core.reset_session()`: cleanup of the current session if any (a
session object is always truthy), then a fresh session becomes current. -/
def reset_session (g : Option SessionSt) (warns : List String) (o : RmOutcome) :
    Except PyErr (SessionSt × List String) :=
  match g with
  | some _ =>
    match sessionCleanup warns o with
    | .error e => .error e
    | .ok w2 => .ok (freshSession, w2)
  | none => .ok (freshSession, warns)

/-- The warnings `JPLSession.cleanup` emits for a given `rmtree` outcome. -/
def rmWarns : RmOutcome → List String
  | .ok => []
  | .fails m => ["Failed to cleanup temp dir: " ++ m]

/-! ## Replay semantics of the loader contract (for the round-trip claims) -/

/-- `clipboard(name)` on the consumer side: the stored payload by key. -/
def clipLookup : List (String × Payload) → String → Option Payload
  | [], _ => none
  | (k, v) :: rest, nm => if k = nm then some v else clipLookup rest nm

/-- Replay of the generated expression
`np.ma.MaskedArray(data=np.load(clipboard(dn)), mask=np.load(clipboard(mn)))`:
load both blobs and build a masked value; the masked positions of the
result are exactly the loaded boolean mask. -/
def evalMaskedExpr (store : List (String × Payload)) (dn mn : String) :
    Option (List PyFloat × List Bool) :=
  match clipLookup store dn, clipLookup store mn with
  | some (.npyNum d), some (.npyBool m) => some (d, m)
  | _, _ => none

/-- The two blob keys a masked-array serialization generates from counter
value `c`. -/
def maskedNames (c : Nat) : String × String :=
  ("data_" ++ natStr c ++ ".npy", "data_" ++ natStr (c + 1) ++ ".npy")

/-! ## Runs of registrations and rescans (for the path-uniqueness claims)

A run interleaves mutations of the underlying object graph (the wrapped
matplotlib operations, observed only through the child lists they leave
behind) with rescans (`_scan_and_register_new_artists`), starting from the
root registration performed by `DecoFigure.__init__`. -/

inductive RStep
  | mutate (w : PlotWorld)
  | scanStep (i : Nat) (fuel : Nat)

def runStep : PlotWorld × RegMap → RStep → PlotWorld × RegMap
  | (_, m), .mutate w2 => (w2, m)
  | (w, m), .scanStep i f => (w, scan_new_artists f w m i)

def runSteps (s : PlotWorld × RegMap) (steps : List RStep) : PlotWorld × RegMap :=
  steps.foldl runStep s

/-- The state right after `DecoFigure.__init__` registered itself:
`self._register_artists_recursive(self, f"figs[{self._fig_id}]")` on an
empty `artist_map`. -/
def initFig (fuel : Nat) (w : PlotWorld) (rootId figId : Nat) : PlotWorld × RegMap :=
  (w, register_artists_recursive fuel w [] rootId (mkRoot figId))

/-- `old` is an initial segment of `new`. -/
def SeqExt {α : Type} (old new : List α) : Prop := ∃ t, old ++ t = new

/-- Append-only evolution of the object graph: every declared child list
grows only at its end (no removal, no reordering). -/
def AppendOnly (w w2 : PlotWorld) : Prop :=
  ∀ i ln, SeqExt (w.children i ln) (w2.children i ln)

/-- A run whose graph mutations are all append-only. -/
inductive GoodSteps : PlotWorld → List RStep → Prop
  | nil : ∀ {w}, GoodSteps w []
  | mutOK : ∀ {w w2 steps}, AppendOnly w w2 → GoodSteps w2 steps →
      GoodSteps w (RStep.mutate w2 :: steps)
  | scnOK : ∀ {w steps} (i f : Nat), GoodSteps w steps →
      GoodSteps w (RStep.scanStep i f :: steps)

/-- No two distinct identities are mapped to the same path string. -/
def RegInjective (m : RegMap) : Prop :=
  ∀ a b p, regFind m a = some p → regFind m b = some p → a = b

/-- `i` is registered at `p` by virtue of being the `k`-th child of a
registered parent, as the current graph stands. -/
def ChildSlot (w : PlotWorld) (m : RegMap) (i : Nat) (p : String) : Prop :=
  ∃ parent pp ln k, regFind m parent = some pp ∧ p = mkChild pp ln k ∧
    (w.children parent ln)[k]? = some i

/-- The registry invariant: injectivity, plus every entry is either the
root or occupies its originating child slot in the current graph. -/
def RegINV (w : PlotWorld) (m : RegMap) (rootId figId : Nat) : Prop :=
  RegInjective m ∧
  ∀ a p, regFind m a = some p → (a = rootId ∧ p = mkRoot figId) ∨ ChildSlot w m a p

/-- Precondition under which each kind of registration call preserves the
invariant. -/
def CallOK (w : PlotWorld) (m : RegMap) (rootId figId : Nat) : RegCall → Prop
  | .node i h => (regFind m i).isSome ∨ ChildSlot w m i h ∨
      (i = rootId ∧ h = mkRoot figId ∧ m = [])
  | .lists i h _ => regFind m i = some h
  | .items h ln idx cs => ∃ parent pre, regFind m parent = some h ∧
      w.children parent ln = pre ++ cs ∧ pre.length = idx

/-! ## Concrete scenarios used by the closed theorems -/

/-- The empty machine state (no figure yet, no singleton session). -/
def stEmpty : MState := ⟨⟨[]⟩, [], none, [], []⟩

/-- A figure (id 1) with no axes yet. -/
def c1World : PlotWorld := ⟨[(1, ⟨.fig, [(.axes, [])]⟩)]⟩

/-- One recording context: a project with a fresh session of its own, and
the figure's root registered; the `core._session` singleton not created. -/
def c1State : MState := ⟨c1World, [(1, "figs[0]")], none, [(0, freshSession)], []⟩

/-- Result of an intercepted `set_title("hi")` on the tracked root in
interactive mode. -/
def c1Result : MState :=
  (decorate 5 id "interactive" none "set_title" 1
    (fun _ _ w => (.noneV, w)) [.strV "hi"] [] c1State).2

/-- Graph before any plotting: the figure with no axes. -/
def c8w0 : PlotWorld := ⟨[(1, ⟨.fig, [(.axes, [])]⟩)]⟩

/-- An axes (id 2) appeared. -/
def c8w1 : PlotWorld := ⟨[(1, ⟨.fig, [(.axes, [2])]⟩), (2, ⟨.axesK, [(.lines, [])]⟩)]⟩

/-- Two lines (ids 10 and 11) were plotted. -/
def c8w2 : PlotWorld := ⟨[(1, ⟨.fig, [(.axes, [2])]⟩), (2, ⟨.axesK, [(.lines, [10, 11])]⟩)]⟩

/-- Line 10 was removed and a new line (id 12) plotted: line 11 now sits at
index 0 and line 12 at index 1. -/
def c8w3 : PlotWorld := ⟨[(1, ⟨.fig, [(.axes, [2])]⟩), (2, ⟨.axesK, [(.lines, [11, 12])]⟩)]⟩

/-- The registry after that sequence of registrations and rescans. -/
def c8CexReg : RegMap :=
  (runSteps (initFig 20 c8w0 1 0)
    [.mutate c8w1, .scanStep 1 20, .mutate c8w2, .scanStep 2 20,
     .mutate c8w3, .scanStep 2 20]).2

/-- An append-only run used to witness the amended uniqueness theorem. -/
def c8GoodSteps : List RStep := [.mutate c8w1, .scanStep 1 20, .mutate c8w2, .scanStep 2 20]


/-! # Theorems

Helper lemmas first, then one theorem per claim (with its witness or
counterexample where required). -/

theorem digitVal_digitChar {d : Nat} (h : d < 10) : digitVal (digitChar d) = d := by
  interval_cases d <;> rfl

theorem isDig_digitChar (d : Nat) : isDig (digitChar d) = true := by
  match d with
  | 0 | 1 | 2 | 3 | 4 | 5 | 6 | 7 | 8 => rfl
  | n + 9 => rfl

theorem digitsVal_append (xs ys : List Char) :
    digitsVal (xs ++ ys) = ys.foldl (fun a c => a * 10 + digitVal c) (digitsVal xs) := by
  simp [digitsVal, List.foldl_append]

theorem natCharsAux_val : ∀ fuel n, n < fuel → digitsVal (natCharsAux fuel n) = n := by
  intro fuel
  induction fuel with
  | zero => intro n h; omega
  | succ f ih =>
    intro n h
    by_cases h10 : n < 10
    · simp [natCharsAux, h10, digitsVal, digitVal_digitChar h10]
    · have hlt : n / 10 < n := Nat.div_lt_self (by omega) (by omega)
      have : n / 10 < f := by omega
      simp only [natCharsAux, if_neg h10]
      rw [digitsVal_append, ih _ this]
      simp [digitVal_digitChar (Nat.mod_lt n (by omega))]
      omega

theorem digitsVal_natChars (n : Nat) : digitsVal (natChars n) = n :=
  natCharsAux_val _ n (Nat.lt_succ_self n)

theorem natChars_injective : Function.Injective natChars := by
  intro a b h
  have := digitsVal_natChars a
  rw [h, digitsVal_natChars] at this
  omega

theorem natStr_injective : Function.Injective natStr := by
  intro a b h
  apply natChars_injective
  exact congrArg String.data h

theorem natCharsAux_digits : ∀ fuel n c, c ∈ natCharsAux fuel n → isDig c = true := by
  intro fuel
  induction fuel with
  | zero => intro n c h; simp [natCharsAux] at h
  | succ f ih =>
    intro n c h
    by_cases h10 : n < 10
    · simp [natCharsAux, h10] at h
      subst h; exact isDig_digitChar n
    · simp only [natCharsAux, if_neg h10, List.mem_append, List.mem_singleton] at h
      rcases h with h | h
      · exact ih _ _ h
      · subst h; exact isDig_digitChar _

theorem natChars_digits {n : Nat} {c : Char} (h : c ∈ natChars n) : isDig c = true :=
  natCharsAux_digits _ n c h

@[simp] theorem curSession_setSession (st : MState) (s : SessionSt) :
    (setSession st s).curSession = s := rfl

@[simp] theorem curSession_initSession (st : MState) :
    (initSession st).curSession = st.curSession := by
  cases st with
  | mk w r g p ws => cases g <;> rfl

@[simp] theorem curSession_warnPush (st : MState) (m : String) :
    (warnPush st m).curSession = st.curSession := rfl

@[simp] theorem join_singleton (s : String) : String.join [s] = s := by
  simp [String.join]

theorem clipLookup_append (l1 l2 : List (String × Payload)) (nm : String) :
    clipLookup (l1 ++ l2) nm =
      match clipLookup l1 nm with
      | some v => some v
      | none => clipLookup l2 nm := by
  induction l1 with
  | nil => simp [clipLookup]
  | cons a rest ih =>
    by_cases h : a.1 = nm <;> simp [clipLookup, h, ih]

theorem dataName_inj (a b : Nat) (ext : String) :
    "data_" ++ natStr a ++ ext = "data_" ++ natStr b ++ ext → a = b := by
  intro h
  have hd : ("data_" ++ natStr a ++ ext).data = ("data_" ++ natStr b ++ ext).data :=
    congrArg String.data h
  simp only [String.data_append] at hd
  have h2 := List.append_cancel_right
    (List.append_cancel_left ((List.append_assoc _ _ _).symm.trans
      (hd.trans (List.append_assoc _ _ _))))
  exact natStr_injective (congrArg String.mk h2)

theorem maskedNames_ne (c : Nat) : (maskedNames c).1 ≠ (maskedNames c).2 := by
  intro h
  have := dataName_inj c (c + 1) (".npy") h
  omega

/-! ## C9 -/

/-- C9: calling reset on a Session with no prior recording activity does
not raise (the result is `.ok` for every starting state, including an
absent singleton and a fresh session), calling reset twice in a row does
not raise, and a failure of `shutil.rmtree` during cleanup is answered
with a warning instead of propagating (`rmWarns` lists the warning emitted
on failure; the reset still returns `.ok` and installs a fresh session). -/
theorem c9_reset_safety (g : Option SessionSt) (warns : List String) (o o2 : RmOutcome) :
    reset_session g warns o =
      .ok (freshSession, warns ++ (if g.isSome then rmWarns o else [])) ∧
    reset_session (some freshSession) (warns ++ (if g.isSome then rmWarns o else [])) o2 =
      .ok (freshSession, (warns ++ (if g.isSome then rmWarns o else [])) ++ rmWarns o2) := by
  cases g <;> cases o <;> cases o2 <;>
    simp [reset_session, sessionCleanup, rmtree, rmWarns]

/-! ## C2 -/

/-- C2: the claim says `Project.figure` on a fresh recording context
returns a new tracked root without raising; evaluating the embedded code
at the failing input (`Project().figure(1)` on a fresh session) shows the
call raises `TypeError` instead — `DecoFigure(self.session, fig_id=fig_idx)`
binds the session positionally to `fig_id` and then passes `fig_id` again
by keyword. -/
theorem c2_figure_raises_type_error :
    projectFigure freshSession 1 =
      .error (.typeError ("__init__() got multiple values for argument \x27fig_id\x27")) := by
  rfl

/-! ## C3 -/

/-- C3: the claim says `Project.save` completes without raising for every
session state and produces the container; evaluating the embedded code
shows that for every session state the very first step raises
`AttributeError`, because `Project.save` reads `self.session.blobs` and
`core.JPLSession` defines no such member. -/
theorem c3_save_raises_attribute_error (s : SessionSt) (filename now : String) :
    projectSave s filename now =
      .error (.attributeError ("\x27JPLSession\x27 object has no attribute \x27blobs\x27")) := rfl

/-! ## C1 -/

/-- C1: the claim says a command logged for a node of one recording context
is appended to that context's own Session log. Evaluating the embedded
code on one context (a project holding its own fresh session) shows the
intercepted call's command lands in the module-level `core._session`
singleton — shared by every context — while the project's own session log
stays empty. -/
theorem c1_commands_go_to_global_session :
    glogs c1Result = ["figs[0].set_title(\x27hi\x27)"] ∧
    c1Result.projects = [(0, freshSession)] := by
  decide

/-! ## C6 -/

/-- C6 counterexample: serializing the keyword arguments
`color="red", shrink=0.05` for `annotate` on the node at path
`figs[0].axes[0]` does not yield the text the claim states: keyword
arguments are rendered by `f"{k} = {...}"` (spaces around the equals sign)
and string values by Python `repr` (single quotes), so the produced command
is `figs[0].axes[0].annotate(color = \x27red\x27,shrink = 0.05)`, which
differs from the claimed `figs[0].axes[0].annotate(color="red",shrink=0.05)`. -/
theorem c6_literal_fidelity_cex :
    (save_emulate_command 5 stEmpty "figs[0].axes[0].annotate" []
        [("color", .strV "red"), ("shrink", .floatV ⟨5, 2⟩)]).1 =
      "figs[0].axes[0].annotate(color = \x27red\x27,shrink = 0.05)" ∧
    "figs[0].axes[0].annotate(color = \x27red\x27,shrink = 0.05)" ≠
      "figs[0].axes[0].annotate(color=\"red\",shrink=0.05)" := by
  decide

/-! ## The serializer never touches the logs (support for C5) -/

@[simp] theorem glogs_initSession (st : MState) : glogs (initSession st) = glogs st := by
  simp [glogs]

@[simp] theorem glogs_newFilename (st : MState) (ext : String) :
    glogs (newFilename st ext).2 = glogs st := by
  simp [glogs, newFilename]

@[simp] theorem glogs_saveFile (st : MState) (nm : String) (p : Payload) :
    glogs (saveFile st nm p) = glogs st := by
  simp [glogs, saveFile]

@[simp] theorem glogs_warnPush (st : MState) (m : String) :
    glogs (warnPush st m) = glogs st := rfl

@[simp] theorem glogs_addLogG (st : MState) (cmd : String) :
    glogs (addLogG st cmd) = glogs st ++ [cmd] := by
  simp [glogs, addLogG]

/-- Serialization writes blobs, bumps the key counter and may warn, but
never appends to the command log. -/
theorem emuA_glogs : ∀ f st c, glogs (emuA f st c).2 = glogs st := by
  intro f
  induction f with
  | zero => intro st c; rfl
  | succ f ih =>
    intro st c
    rcases c with v | xs | ps
    · cases v <;>
        simp only [emuA, unser] <;>
        (split <;> first
          | (split <;> simp [ih])
          | simp [ih])
    · cases xs with
      | nil => rfl
      | cons x rest => simp [emuA, ih]
    · cases ps with
      | nil => rfl
      | cons p rest => simp [emuA, ih]

theorem emulate_args_glogs (f : Nat) (st : MState) (v : PyValue) :
    glogs (emulate_args f st v).2 = glogs st := by
  simp [emulate_args, emuA_glogs]

theorem emuArgsList_glogs (f : Nat) : ∀ st xs, glogs (emuArgsList f st xs).2 = glogs st := by
  intro st xs
  induction xs generalizing st with
  | nil => rfl
  | cons x rest ih => simp [emuArgsList, emulate_args_glogs, ih]

theorem emuKwargsList_glogs (f : Nat) : ∀ st xs, glogs (emuKwargsList f st xs).2 = glogs st := by
  intro st xs
  induction xs generalizing st with
  | nil => rfl
  | cons x rest ih => simp [emuKwargsList, emulate_args_glogs, ih]

theorem save_emulate_command_glogs (f : Nat) (st : MState) (nm : String)
    (args : List PyValue) (kwargs : List (String × PyValue)) :
    glogs (save_emulate_command f st nm args kwargs).2 = glogs st := by
  simp [save_emulate_command, emuArgsList_glogs, emuKwargsList_glogs]

@[simp] theorem glogs_setReg (st : MState) (r : RegMap) :
    glogs { st with reg := r } = glogs st := rfl

theorem glogs_foldl_scan (objId : Nat) : ∀ (l : List Nat) (st : MState),
    glogs (l.foldl
      (fun s _ => { s with reg := scan_new_artists (scanFuel s.world) s.world s.reg objId })
      st) = glogs st := by
  intro l
  induction l with
  | nil => intro st; rfl
  | cons a rest ih => intro st; rw [List.foldl_cons, ih]; rfl

/-- The rescan block never touches the logs. -/
theorem glogs_scanPhase (fuel objId : Nat) (result : PyValue) (st : MState) :
    glogs (scanPhase fuel objId result st) = glogs st := by
  cases result <;> simp [scanPhase, glogs_foldl_scan]

/-- What the logging block appends. -/
theorem glogs_logPhase (fuel : Nat) (abspath : String → String) (callFrom : String)
    (callerFile : Option String) (name : String) (objId : Nat)
    (args : List PyValue) (kwargs : List (String × PyValue)) (st1 : MState) :
    glogs (logPhase fuel abspath callFrom callerFile name objId args kwargs st1) =
      if shouldLogB abspath callFrom callerFile = true ∧
          (regFind st1.reg objId).getD "" ≠ "" then
        glogs st1 ++ [(save_emulate_command fuel st1
            (((regFind st1.reg objId).getD "") ++ "." ++ name) args kwargs).1]
      else glogs st1 := by
  unfold logPhase
  rcases hsc : save_emulate_command fuel st1
      (((regFind st1.reg objId).getD "") ++ "." ++ name) args kwargs with ⟨cmd, stA⟩
  have hA : glogs stA = glogs st1 := by
    have h2 := save_emulate_command_glogs fuel st1
      (((regFind st1.reg objId).getD "") ++ "." ++ name) args kwargs
    rw [hsc] at h2
    exact h2
  by_cases hs : shouldLogB abspath callFrom callerFile = true
  · by_cases hh : (regFind st1.reg objId).getD "" ≠ ""
    · simp [hs, hh, hsc, hA]
    · simp [hs, hh]
  · simp [hs]

/-! ## C7 -/

/-- C7: serializing a masked array (dense data plus boolean mask) stores
exactly two new blobs — the data and the mask — under the two fresh
distinct keys produced by the session's key counter, bumps the counter by
two, returns the expression reconstructing the value from two loader
calls, and replaying that expression against the blob store recovers a
masked value whose masked positions equal the input mask. The freshness
hypotheses say the two generated keys are not yet in the store (guaranteed
by the strictly increasing counter). -/
theorem c7_masked_roundtrip (fuel : Nat) (st : MState) (d : List PyFloat) (msk : List Bool)
    (hfresh1 : clipLookup st.curSession.clipboard
      (maskedNames st.curSession.data_counter).1 = none)
    (hfresh2 : clipLookup st.curSession.clipboard
      (maskedNames st.curSession.data_counter).2 = none) :
    (emulate_args (fuel + 1) st (.maskedV d msk)).1 =
      "np.ma.MaskedArray(data=np.load(clipboard(\"" ++
        (maskedNames st.curSession.data_counter).1 ++
        "\")), mask=np.load(clipboard(\"" ++
        (maskedNames st.curSession.data_counter).2 ++ "\")))" ∧
    (emulate_args (fuel + 1) st (.maskedV d msk)).2.curSession.clipboard =
      st.curSession.clipboard ++
        [((maskedNames st.curSession.data_counter).1, .npyNum d),
         ((maskedNames st.curSession.data_counter).2, .npyBool msk)] ∧
    (emulate_args (fuel + 1) st (.maskedV d msk)).2.curSession.data_counter =
      st.curSession.data_counter + 2 ∧
    (maskedNames st.curSession.data_counter).1 ≠
      (maskedNames st.curSession.data_counter).2 ∧
    evalMaskedExpr (emulate_args (fuel + 1) st (.maskedV d msk)).2.curSession.clipboard
      (maskedNames st.curSession.data_counter).1
      (maskedNames st.curSession.data_counter).2 = some (d, msk) := by
  have hne := maskedNames_ne st.curSession.data_counter
  have hclip : (emulate_args (fuel + 1) st (.maskedV d msk)).2.curSession.clipboard =
      st.curSession.clipboard ++
        [((maskedNames st.curSession.data_counter).1, .npyNum d),
         ((maskedNames st.curSession.data_counter).2, .npyBool msk)] := by
    simp [emulate_args, emuA, headerD, newFilename, saveFile, maskedNames]
  refine ⟨?_, hclip, ?_, hne, ?_⟩
  · simp [emulate_args, emuA, headerD, newFilename, saveFile, maskedNames]
  · simp [emulate_args, emuA, headerD, newFilename, saveFile, maskedNames]
  · rw [hclip, evalMaskedExpr, clipLookup_append, clipLookup_append, hfresh1, hfresh2]
    simp [clipLookup, hne]

/-- C7 witness: the claim's concrete instance — data `[1.0, -1.0, 2.0]`,
mask `[false, true, false]`, empty starting state. -/
theorem c7_masked_roundtrip_witness :
    clipLookup stEmpty.curSession.clipboard
      (maskedNames stEmpty.curSession.data_counter).1 = none ∧
    clipLookup stEmpty.curSession.clipboard
      (maskedNames stEmpty.curSession.data_counter).2 = none ∧
    evalMaskedExpr
      (emulate_args 3 stEmpty
        (.maskedV [⟨10, 1⟩, ⟨-10, 1⟩, ⟨20, 1⟩] [false, true, false])).2.curSession.clipboard
      (maskedNames stEmpty.curSession.data_counter).1
      (maskedNames stEmpty.curSession.data_counter).2 =
      some ([⟨10, 1⟩, ⟨-10, 1⟩, ⟨20, 1⟩], [false, true, false]) :=
  ⟨rfl, rfl,
    (c7_masked_roundtrip 2 stEmpty [⟨10, 1⟩, ⟨-10, 1⟩, ⟨20, 1⟩] [false, true, false]
      rfl rfl).2.2.2.2⟩

/-! ## C4 -/

/-- C4: the serializer is total — it answers a text string for every input
value and machine state (its result type has no exception channel; the
Python-level `try` surrounds the whole dispatch) — and at each of the two
points where a dispatch rule raises internally (`np.save` with
`allow_pickle=False` on an object-dtype array, and a fallback `repr` that
raises) the result is the inert placeholder naming the value's type, a
warning is pushed, and the enclosing command produced by
`_save_emulate_command` is still built with the placeholder standing in
for that argument. -/
theorem c4_serializer_totality (fuel : Nat) (st : MState) (tn e nm : String)
    (xs : List PyValue) :
    (∀ v, ∃ s st', emulate_args fuel st v = (s, st')) ∧
    emulate_args (fuel + 1) st (.objV tn (.error e)) =
      (unserPH tn, warnPush (initSession st) (warnMsgOf tn e)) ∧
    emulate_args (fuel + 1) st (.ndarrayObj xs) =
      (unserPH "ndarray",
       warnPush ((newFilename (initSession st) (".npy")).2)
         (warnMsgOf "ndarray" allowPickleErr)) ∧
    save_emulate_command (fuel + 1) st nm [.objV tn (.error e)] [] =
      (nm ++ "(" ++ unserPH tn ++ ")", warnPush (initSession st) (warnMsgOf tn e)) := by
  refine ⟨fun v => ⟨_, _, rfl⟩, ?_, ?_, ?_⟩
  · simp [emulate_args, emuA, headerD, unser]
  · simp [emulate_args, emuA, headerD, unser, typeName]
  · simp [save_emulate_command, emuArgsList, emuKwargsList, emulate_args, emuA,
      headerD, unser, joinSep]

/-! ## C6 -/

/-- C6 amended: for every machine state and recursion budget, serializing
keyword arguments `color="red", shrink=0.05` for an operation named
`annotate` on a node whose path is `figs[0].axes[0]` (no positional
arguments) yields exactly
`figs[0].axes[0].annotate(color = \x27red\x27,shrink = 0.05)`:
positional arguments come first and keyword arguments follow in call
order, each keyword rendered as `name = value` with one space around the
equals sign and string values in single-quoted repr form. -/
theorem c6_literal_fidelity_amended (fuel : Nat) (st : MState) :
    (save_emulate_command (fuel + 1) st "figs[0].axes[0].annotate" []
        [("color", .strV "red"), ("shrink", .floatV ⟨5, 2⟩)]).1 =
      "figs[0].axes[0].annotate(color = \x27red\x27,shrink = 0.05)" := by
  simp [save_emulate_command, emuArgsList, emuKwargsList, emulate_args, emuA,
    headerD, joinSep]
  rfl

/-! ## Path-grammar injectivity (support for C8) -/

/-- Splitting at a separator character that occurs in neither prefix. -/
theorem sepSplit {sep : Char} : ∀ (x1 x2 t1 t2 : List Char),
    (∀ c ∈ x1, c ≠ sep) → (∀ c ∈ x2, c ≠ sep) →
    x1 ++ sep :: t1 = x2 ++ sep :: t2 → x1 = x2 ∧ t1 = t2 := by
  intro x1
  induction x1 with
  | nil =>
    intro x2 t1 t2 _ h2 heq
    cases x2 with
    | nil => simpa using heq
    | cons b bs =>
      simp only [List.nil_append, List.cons_append, List.cons.injEq] at heq
      exact absurd heq.1.symm (h2 b (by simp))
  | cons a as ih =>
    intro x2 t1 t2 h1 h2 heq
    cases x2 with
    | nil =>
      simp only [List.nil_append, List.cons_append, List.cons.injEq] at heq
      exact absurd heq.1 (h1 a (by simp))
    | cons b bs =>
      simp only [List.cons_append, List.cons.injEq] at heq
      obtain ⟨hab, hrest⟩ := heq
      obtain ⟨hx, ht⟩ := ih bs t1 t2 (fun c hc => h1 c (List.mem_cons_of_mem _ hc))
        (fun c hc => h2 c (List.mem_cons_of_mem _ hc)) hrest
      exact ⟨by rw [hab, hx], ht⟩

theorem isDig_ne_lbracket {c : Char} (h : isDig c = true) : c ≠ '[' := by
  intro hc
  subst hc
  exact absurd h (by decide)

theorem isDig_ne_dot {c : Char} (h : isDig c = true) : c ≠ '.' := by
  intro hc
  subst hc
  exact absurd h (by decide)

theorem lnStr_ne_dot (ln : ListName) : ∀ c ∈ ln.str.data, c ≠ '.' := by
  cases ln <;> decide

theorem lnStr_inj {ln1 ln2 : ListName} (h : ln1.str = ln2.str) : ln1 = ln2 := by
  cases ln1 <;> cases ln2 <;> first | rfl | (exact absurd h (by decide))

theorem mkChild_data (h : String) (ln : ListName) (i : Nat) :
    (mkChild h ln i).data =
      h.data ++ '.' :: (ln.str.data ++ '[' :: (natChars i ++ [']'])) := by
  simp [mkChild, String.data_append, natStr]

/-- The child-path grammar is uniquely decodable: equal rendered paths have
equal header, relation name and index. -/
theorem mkChild_inj {h1 h2 : String} {ln1 ln2 : ListName} {i1 i2 : Nat}
    (heq : mkChild h1 ln1 i1 = mkChild h2 ln2 i2) : h1 = h2 ∧ ln1 = ln2 ∧ i1 = i2 := by
  have hd : (mkChild h1 ln1 i1).data = (mkChild h2 ln2 i2).data := congrArg String.data heq
  rw [mkChild_data, mkChild_data] at hd
  have hrev := congrArg List.reverse hd
  simp only [List.reverse_append, List.reverse_cons, List.append_assoc,
    List.singleton_append, List.cons_append, List.nil_append] at hrev
  -- hrev : ']' :: ((natChars i1).reverse ++ '[' :: (ln1.str.data.reverse ++
  --         '.' :: h1.data.reverse)) = ... (same shape on the right)
  have hrev2 := (List.cons.injEq _ _ _ _).mp hrev
  obtain ⟨hdig, hrest⟩ := sepSplit ((natChars i1).reverse) ((natChars i2).reverse) _ _
    (fun c hc => isDig_ne_lbracket (natChars_digits (List.mem_reverse.mp hc)))
    (fun c hc => isDig_ne_lbracket (natChars_digits (List.mem_reverse.mp hc)))
    hrev2.2
  obtain ⟨hln, hh⟩ := sepSplit (ln1.str.data.reverse) (ln2.str.data.reverse) _ _
    (fun c hc => lnStr_ne_dot ln1 c (List.mem_reverse.mp hc))
    (fun c hc => lnStr_ne_dot ln2 c (List.mem_reverse.mp hc))
    hrest
  refine ⟨?_, ?_, ?_⟩
  · exact String.ext (List.reverse_injective hh)
  · exact lnStr_inj (String.ext (List.reverse_injective hln))
  · exact natChars_injective (List.reverse_injective hdig)

theorem dot_not_mem_mkRoot (k : Nat) : '.' ∉ (mkRoot k).data := by
  intro hmem
  simp only [mkRoot, String.data_append, List.mem_append] at hmem
  rcases hmem with (h | h) | h
  · exact absurd h (by decide)
  · exact isDig_ne_dot (natChars_digits (by simpa [natStr] using h)) rfl
  · exact absurd h (by decide)

theorem dot_mem_mkChild (h : String) (ln : ListName) (i : Nat) :
    '.' ∈ (mkChild h ln i).data := by
  rw [mkChild_data]
  simp

/-- A root path is never a child path. -/
theorem mkRoot_ne_mkChild (k : Nat) (h : String) (ln : ListName) (i : Nat) :
    mkRoot k ≠ mkChild h ln i := by
  intro heq
  exact dot_not_mem_mkRoot k (heq ▸ dot_mem_mkChild h ln i)

/-! ## Registry invariant machinery (support for C8) -/

@[simp] theorem regFind_cons (j : Nat) (p : String) (m : RegMap) (a : Nat) :
    regFind ((j, p) :: m) a = if j = a then some p else regFind m a := rfl

theorem regFind_mono_insert {m : RegMap} {i : Nat} {p : String} (hnew : regFind m i = none)
    {x : Nat} {q : String} (hx : regFind m x = some q) : regFind ((i, p) :: m) x = some q := by
  have hne : i ≠ x := by
    intro h
    subst h
    rw [hnew] at hx
    cases hx
  simp [hne, hx]

theorem ChildSlot.mono {w : PlotWorld} {m : RegMap} {i : Nat} {p : String}
    (h : ChildSlot w m i p) {m' : RegMap}
    (hm : ∀ x q, regFind m x = some q → regFind m' x = some q) : ChildSlot w m' i p := by
  obtain ⟨parent, pp, ln, k, h1, h2, h3⟩ := h
  exact ⟨parent, pp, ln, k, hm _ _ h1, h2, h3⟩

/-- The pigeon argument: under the invariant, a path with a valid origin for
an unregistered identity cannot already be in the registry's range. -/
theorem path_fresh {w : PlotWorld} {m : RegMap} {rid fid i : Nat} {p : String}
    (hINV : RegINV w m rid fid) (hnew : regFind m i = none)
    (hslot : ChildSlot w m i p) : ∀ b, regFind m b = some p → False := by
  intro b hb
  obtain ⟨parent, pp, ln, k, h1, h2, h3⟩ := hslot
  rcases hINV.2 b p hb with ⟨_, hroot⟩ | ⟨parent', pp', ln', k', h1', h2', h3'⟩
  · exact mkRoot_ne_mkChild fid pp ln k (hroot ▸ h2)
  · obtain ⟨hpp, hln, hk⟩ := mkChild_inj ((h2.symm.trans h2'))
    subst hpp hln hk
    have hpar : parent = parent' := hINV.1 parent parent' pp h1 h1'
    subst hpar
    rw [h3] at h3'
    have hbi : i = b := Option.some.inj h3'
    subst hbi
    rw [hnew] at hb
    cases hb

/-- Inserting an unregistered identity at a validly originated path
preserves the invariant. -/
theorem regInsert_inv {w : PlotWorld} {m : RegMap} {rid fid i : Nat} {p : String}
    (hINV : RegINV w m rid fid) (hnew : regFind m i = none)
    (horigin : ChildSlot w m i p ∨ (i = rid ∧ p = mkRoot fid ∧ m = [])) :
    RegINV w (regInsert m i p) rid fid := by
  have hfresh : ∀ b, regFind m b = some p → False := by
    rcases horigin with hslot | ⟨_, _, hm⟩
    · exact path_fresh hINV hnew hslot
    · intro b hb
      rw [hm] at hb
      cases hb
  constructor
  · intro a b q hfa hfb
    rcases eq_or_ne i a with ha | ha <;> rcases eq_or_ne i b with hb | hb
    · omega
    · subst ha
      simp [regInsert] at hfa
      rw [← hfa] at hfb
      simp [regInsert, hb] at hfb
      exact absurd hfb (fun h => hfresh b h)
    · subst hb
      simp [regInsert] at hfb
      rw [← hfb] at hfa
      simp [regInsert, ha] at hfa
      exact absurd hfa (fun h => hfresh a h)
    · simp [regInsert, ha, hb] at hfa hfb
      exact hINV.1 a b q hfa hfb
  · intro a q hfa
    rcases eq_or_ne i a with ha | ha
    · subst ha
      simp [regInsert] at hfa
      subst hfa
      rcases horigin with hslot | ⟨hrid, hroot, _⟩
      · exact .inr (hslot.mono (fun x r hx => regFind_mono_insert hnew hx))
      · exact .inl ⟨hrid, hroot⟩
    · simp [regInsert, ha] at hfa
      rcases hINV.2 a q hfa with hroot | hslot
      · exact .inl hroot
      · exact .inr (hslot.mono (fun x r hx => regFind_mono_insert hnew hx))

/-- Registration only ever adds entries: existing lookups are preserved
(unconditionally). -/
theorem regStep_mono : ∀ (f : Nat) (w : PlotWorld) (m : RegMap) (c : RegCall)
    (x : Nat) (q : String), regFind m x = some q → regFind (regStep f w m c) x = some q := by
  intro f
  induction f with
  | zero => intro w m c x q h; exact h
  | succ f ih =>
    intro w m c x q h
    match c with
    | .node i hh =>
      simp only [regStep]
      by_cases hreg : (regFind m i).isSome
      · simp [hreg, h]
      · have hnone : regFind m i = none := Option.not_isSome_iff_eq_none.mp hreg
        simp only [hreg, Bool.false_eq_true, if_false]
        exact ih _ _ _ _ _ (regFind_mono_insert hnone h)
    | .lists i hh [] => simpa [regStep] using h
    | .lists i hh (ln :: rest) =>
      simp only [regStep]
      exact ih _ _ _ _ _ (ih _ _ _ _ _ h)
    | .items hh ln idx [] => simpa [regStep] using h
    | .items hh ln idx (c0 :: cs) =>
      simp only [regStep]
      exact ih _ _ _ _ _ (ih _ _ _ _ _ h)

/-- The registration walk preserves the registry invariant, given the
call's precondition. -/
theorem regStep_ok : ∀ (f : Nat) (w : PlotWorld) (m : RegMap) (c : RegCall)
    (rid fid : Nat), RegINV w m rid fid → CallOK w m rid fid c →
    RegINV w (regStep f w m c) rid fid := by
  intro f
  induction f with
  | zero => intro w m c rid fid hI _; exact hI
  | succ f ih =>
    intro w m c rid fid hI hC
    match c with
    | .node i h =>
      by_cases hreg : (regFind m i).isSome
      · simpa [regStep, hreg] using hI
      · have hnone : regFind m i = none := Option.not_isSome_iff_eq_none.mp hreg
        have horigin : ChildSlot w m i h ∨ (i = rid ∧ h = mkRoot fid ∧ m = []) := by
          rcases hC with hs | hc | hr
          · rw [hnone] at hs
            cases hs
          · exact .inl hc
          · exact .inr hr
        have hI1 : RegINV w (regInsert m i h) rid fid := regInsert_inv hI hnone horigin
        have hC1 : CallOK w (regInsert m i h) rid fid
            (.lists i h (childsTree (w.kindOf i))) := by
          simp [CallOK, regInsert]
        simp only [regStep, hreg, Bool.false_eq_true, if_false]
        exact ih _ _ _ _ _ hI1 hC1
    | .lists i h [] => simpa [regStep] using hI
    | .lists i h (ln :: rest) =>
      have hfind : regFind m i = some h := hC
      have hCitems : CallOK w m rid fid (.items h ln 0 (w.children i ln)) :=
        ⟨i, [], hfind, by simp, rfl⟩
      have hI2 := ih w m (.items h ln 0 (w.children i ln)) rid fid hI hCitems
      have hC2 : CallOK w (regStep f w m (.items h ln 0 (w.children i ln))) rid fid
          (.lists i h rest) := regStep_mono f w m _ i h hfind
      simp only [regStep]
      exact ih _ _ _ _ _ hI2 hC2
    | .items h ln idx [] => simpa [regStep] using hI
    | .items h ln idx (c0 :: cs) =>
      obtain ⟨parent, pre, hfind, hdecomp, hlen⟩ := hC
      have hslot : (w.children parent ln)[idx]? = some c0 := by
        rw [hdecomp, ← hlen]
        simp [List.getElem?_append_right (Nat.le_refl pre.length)]
      have hCnode : CallOK w m rid fid (.node c0 (mkChild h ln idx)) :=
        .inr (.inl ⟨parent, h, ln, idx, hfind, rfl, hslot⟩)
      have hI2 := ih w m (.node c0 (mkChild h ln idx)) rid fid hI hCnode
      have hC2 : CallOK w (regStep f w m (.node c0 (mkChild h ln idx))) rid fid
          (.items h ln (idx + 1) cs) := by
        refine ⟨parent, pre ++ [c0], regStep_mono f w m _ parent h hfind, ?_, by simp [hlen]⟩
        rw [hdecomp]
        simp
      simp only [regStep]
      exact ih _ _ _ _ _ hI2 hC2

theorem scanItems_mono (fuel : Nat) (w : PlotWorld) (h : String) (ln : ListName) :
    ∀ (cs : List Nat) (m : RegMap) (idx : Nat) (x : Nat) (q : String),
    regFind m x = some q → regFind (scanItems fuel w h ln m idx cs) x = some q := by
  intro cs
  induction cs with
  | nil => intro m idx x q hx; exact hx
  | cons c0 rest ih =>
    intro m idx x q hx
    simp only [scanItems]
    apply ih
    by_cases hc : (regFind m c0).isSome
    · simpa [hc] using hx
    · simp only [hc, Bool.false_eq_true, if_false]
      exact regStep_mono _ _ _ _ _ _ hx

theorem scanItems_ok (fuel : Nat) (w : PlotWorld) (h : String) (ln : ListName)
    (rid fid : Nat) :
    ∀ (cs : List Nat) (m : RegMap) (idx : Nat) (parent : Nat) (pre : List Nat),
    RegINV w m rid fid → regFind m parent = some h →
    w.children parent ln = pre ++ cs → pre.length = idx →
    RegINV w (scanItems fuel w h ln m idx cs) rid fid := by
  intro cs
  induction cs with
  | nil => intro m idx parent pre hI _ _ _; exact hI
  | cons c0 rest ih =>
    intro m idx parent pre hI hfind hdecomp hlen
    simp only [scanItems]
    have hslot : (w.children parent ln)[idx]? = some c0 := by
      rw [hdecomp, ← hlen]
      simp [List.getElem?_append_right (Nat.le_refl pre.length)]
    have hI2 : RegINV w
        (if (regFind m c0).isSome then m
         else register_artists_recursive fuel w m c0 (mkChild h ln idx)) rid fid := by
      by_cases hc : (regFind m c0).isSome
      · simpa [hc] using hI
      · simp only [hc, Bool.false_eq_true, if_false, register_artists_recursive]
        exact regStep_ok fuel w m _ rid fid hI
          (.inr (.inl ⟨parent, h, ln, idx, hfind, rfl, hslot⟩))
    have hmono : ∀ x q, regFind m x = some q →
        regFind (if (regFind m c0).isSome then m
          else register_artists_recursive fuel w m c0 (mkChild h ln idx)) x = some q := by
      intro x q hx
      by_cases hc : (regFind m c0).isSome
      · simpa [hc] using hx
      · simp only [hc, Bool.false_eq_true, if_false, register_artists_recursive]
        exact regStep_mono _ _ _ _ _ _ hx
    exact ih _ (idx + 1) parent (pre ++ [c0]) hI2 (hmono _ _ hfind)
      (by rw [hdecomp]; simp) (by simp [hlen])

theorem scanLists_mono (fuel : Nat) (w : PlotWorld) (i : Nat) (h : String) :
    ∀ (lns : List ListName) (m : RegMap) (x : Nat) (q : String),
    regFind m x = some q → regFind (scanLists fuel w i h m lns) x = some q := by
  intro lns
  induction lns with
  | nil => intro m x q hx; exact hx
  | cons ln rest ih =>
    intro m x q hx
    simp only [scanLists]
    exact ih _ _ _ (scanItems_mono fuel w h ln _ m 0 x q hx)

theorem scanLists_ok (fuel : Nat) (w : PlotWorld) (i : Nat) (h : String)
    (rid fid : Nat) :
    ∀ (lns : List ListName) (m : RegMap),
    RegINV w m rid fid → regFind m i = some h →
    RegINV w (scanLists fuel w i h m lns) rid fid := by
  intro lns
  induction lns with
  | nil => intro m hI _; exact hI
  | cons ln rest ih =>
    intro m hI hfind
    simp only [scanLists]
    exact ih _ (scanItems_ok fuel w h ln rid fid _ m 0 i [] hI hfind (by simp) rfl)
      (scanItems_mono fuel w h ln _ m 0 i h hfind)

theorem scan_mono (fuel : Nat) (w : PlotWorld) (m : RegMap) (i x : Nat) (q : String)
    (hx : regFind m x = some q) : regFind (scan_new_artists fuel w m i) x = some q := by
  unfold scan_new_artists
  cases hfind : regFind m i with
  | none => exact hx
  | some h =>
    by_cases hh : h = ""
    · simpa [hh] using hx
    · simp only [hh, if_false]
      exact scanLists_mono fuel w i h _ m x q hx

theorem scan_ok (fuel : Nat) (w : PlotWorld) (m : RegMap) (i rid fid : Nat)
    (hI : RegINV w m rid fid) : RegINV w (scan_new_artists fuel w m i) rid fid := by
  unfold scan_new_artists
  cases hfind : regFind m i with
  | none => exact hI
  | some h =>
    by_cases hh : h = ""
    · simpa [hh] using hI
    · simp only [hh, if_false]
      exact scanLists_ok fuel w i h rid fid _ m hI hfind

/-- Append-only graph mutation keeps every registered child slot valid. -/
theorem RegINV_mutate {w w2 : PlotWorld} {m : RegMap} {rid fid : Nat}
    (hI : RegINV w m rid fid) (hAO : AppendOnly w w2) : RegINV w2 m rid fid := by
  refine ⟨hI.1, fun a p hf => ?_⟩
  rcases hI.2 a p hf with hroot | ⟨parent, pp, ln, k, h1, h2, h3⟩
  · exact .inl hroot
  · refine .inr ⟨parent, pp, ln, k, h1, h2, ?_⟩
    obtain ⟨t, ht⟩ := hAO parent ln
    have hk : k < (w.children parent ln).length := by
      by_contra hk
      push_neg at hk
      rw [List.getElem?_eq_none hk] at h3
      cases h3
    rw [← ht, List.getElem?_append]
    simp [hk, h3]

theorem runSteps_mono : ∀ (steps : List RStep) (s : PlotWorld × RegMap) (x : Nat)
    (q : String), regFind s.2 x = some q → regFind (runSteps s steps).2 x = some q := by
  intro steps
  induction steps with
  | nil => intro s x q hx; exact hx
  | cons st0 rest ih =>
    intro s x q hx
    rcases s with ⟨w, m⟩
    cases st0 with
    | mutate w2 => exact ih (w2, m) x q hx
    | scanStep i f => exact ih (w, scan_new_artists f w m i) x q (scan_mono f w m i x q hx)

theorem runSteps_inv : ∀ (steps : List RStep) (s : PlotWorld × RegMap) (rid fid : Nat),
    RegINV s.1 s.2 rid fid → GoodSteps s.1 steps →
    RegINV (runSteps s steps).1 (runSteps s steps).2 rid fid := by
  intro steps
  induction steps with
  | nil => intro s rid fid hI _; exact hI
  | cons st0 rest ih =>
    intro s rid fid hI hG
    rcases s with ⟨w, m⟩
    cases hG with
    | mutOK hAO hG2 =>
      exact ih _ rid fid (RegINV_mutate hI hAO) hG2
    | scnOK i f hG2 =>
      exact ih (w, scan_new_artists f w m i) rid fid (scan_ok f w m i rid fid hI) hG2

theorem RegINV_empty (w : PlotWorld) (rid fid : Nat) : RegINV w [] rid fid :=
  ⟨fun a b p h1 _ => (by cases h1), fun a p h => (by cases h)⟩

theorem initFig_inv (fuel : Nat) (w : PlotWorld) (rootId figId : Nat) :
    RegINV w (initFig fuel w rootId figId).2 rootId figId :=
  regStep_ok fuel w [] _ rootId figId (RegINV_empty w rootId figId)
    (.inr (.inr ⟨rfl, rfl, rfl⟩))

theorem SeqExt_iff {α : Type} (l1 l2 : List α) : SeqExt l1 l2 ↔ l2.take l1.length = l1 := by
  constructor
  · rintro ⟨t, rfl⟩
    exact List.take_left l1 t
  · intro h
    refine ⟨l2.drop l1.length, ?_⟩
    conv_rhs => rw [← List.take_append_drop l1.length l2]
    rw [h]

/-! ## C5 -/

/-- C5: for every intercepted invocation, a command is appended to the
singleton session's main log if and only if the logging decision fires
(the context is interactive, or the immediate caller's file is nonempty
and its absolute path equals the originating script recorded at context
start) and the target node resolves to a truthy registered path; when
resolution fails nothing is appended and no error surfaces. The appended
command is built against the machine state already holding the result of
the underlying operation (`{ st with world := (fn ...).2 }`), and the
result handed back is the underlying operation's — the append happens
after the operation completed. -/
theorem c5_logging_policy (fuel : Nat) (abspath : String → String) (callFrom : String)
    (callerFile : Option String) (name : String) (objId : Nat)
    (fn : List PyValue → List (String × PyValue) → PlotWorld → PyValue × PlotWorld)
    (args : List PyValue) (kwargs : List (String × PyValue)) (st : MState) :
    glogs (decorate fuel abspath callFrom callerFile name objId fn args kwargs st).2 =
      (if shouldLogB abspath callFrom callerFile = true ∧
          (regFind st.reg objId).getD "" ≠ "" then
        glogs st ++ [(save_emulate_command fuel
            { st with world := (fn args kwargs st.world).2 }
            (((regFind st.reg objId).getD "") ++ "." ++ name) args kwargs).1]
      else glogs st) ∧
    (shouldLogB abspath callFrom callerFile = true ↔
      callFrom = "interactive" ∨
        ∃ fl, callerFile = some fl ∧ fl ≠ "" ∧ abspath fl = callFrom) ∧
    (decorate fuel abspath callFrom callerFile name objId fn args kwargs st).1 =
      (fn args kwargs st.world).1 := by
  refine ⟨?_, ?_, rfl⟩
  · show glogs (afterExec fuel abspath callFrom callerFile name objId args kwargs
        (fn args kwargs st.world).1 { st with world := (fn args kwargs st.world).2 }) = _
    rw [afterExec, glogs_scanPhase, glogs_logPhase]
    rfl
  · rcases callerFile with _ | fl
    · by_cases hc : callFrom = "interactive" <;> simp [shouldLogB, hc]
    · by_cases hc : callFrom = "interactive"
      · simp [shouldLogB, hc]
      · by_cases hf : fl ≠ "" ∧ abspath fl = callFrom <;> simp [shouldLogB, hc, hf]

/-! ## C10 -/

/-- C10: wrapper transparency. The shim factors as: one invocation of the
underlying operation, followed by `afterExec` — a function that does not
receive the operation at all — applied to the operation's result and
post-state; and the value the shim returns is exactly the value the
underlying operation returned. So the operation runs exactly once, before
any logging or rescanning, and a wrapped node is observationally
equivalent to an unwrapped one with respect to operation results. -/
theorem c10_wrapper_transparency (fuel : Nat) (abspath : String → String)
    (callFrom : String) (callerFile : Option String) (name : String) (objId : Nat)
    (fn : List PyValue → List (String × PyValue) → PlotWorld → PyValue × PlotWorld)
    (args : List PyValue) (kwargs : List (String × PyValue)) (st : MState) :
    decorate fuel abspath callFrom callerFile name objId fn args kwargs st =
      ((fn args kwargs st.world).1,
       afterExec fuel abspath callFrom callerFile name objId args kwargs
         (fn args kwargs st.world).1
         { st with world := (fn args kwargs st.world).2 }) ∧
    (decorate fuel abspath callFrom callerFile name objId fn args kwargs st).1 =
      (fn args kwargs st.world).1 := ⟨rfl, rfl⟩

/-! ## C8 -/

/-- C8 counterexample: the claim states that for every sequence of
registrations and rescans no two distinct identities map to the same
path. In the run where two lines (ids 10, 11) are registered under
`figs[0].axes[0]`, line 10 is then removed and a new line (id 12)
plotted, the rescan assigns id 12 the path `figs[0].axes[0].lines[1]`
already held by id 11: two distinct identities, one path string. -/
theorem c8_path_uniqueness_cex :
    regFind c8CexReg 11 = some "figs[0].axes[0].lines[1]" ∧
    regFind c8CexReg 12 = some "figs[0].axes[0].lines[1]" ∧
    (11 : Nat) ≠ 12 := by
  decide

theorem c8_witness_ao1 : AppendOnly c8w0 c8w1 := by
  intro i ln
  rw [SeqExt_iff]
  by_cases h1 : (1 : Nat) = i
  · subst h1
    cases ln <;> decide
  · have h0 : c8w0.children i ln = [] := by
      simp [c8w0, PlotWorld.children, findAssoc, h1]
    rw [h0]
    simp

theorem c8_witness_ao2 : AppendOnly c8w1 c8w2 := by
  intro i ln
  rw [SeqExt_iff]
  by_cases h1 : (1 : Nat) = i
  · subst h1
    cases ln <;> decide
  · by_cases h2 : (2 : Nat) = i
    · subst h2
      cases ln <;> decide
    · have h0 : c8w1.children i ln = [] := by
        simp [c8w1, PlotWorld.children, findAssoc, h1, h2]
      rw [h0]
      simp

theorem c8GoodSteps_good : GoodSteps c8w0 c8GoodSteps :=
  .mutOK c8_witness_ao1 (.scnOK 1 20 (.mutOK c8_witness_ao2 (.scnOK 2 20 .nil)))

/-- C8 amended: (a) provided the declared child lists only ever grow at
their end between rescans (no removal or reordering of already-seen
children), no two distinct node identities are ever mapped to the same
path string, over every sequence of registrations and rescans starting
from the root registration; and (b) unconditionally, a registered
identity's path never changes across any further steps — repeated lookups
of the same identity always return the same path. Without the append-only
proviso, part (a) fails (`c8_path_uniqueness_cex`). -/
theorem c8_path_uniqueness_amended :
    (∀ (fuel : Nat) (w : PlotWorld) (rootId figId : Nat) (steps : List RStep),
       GoodSteps w steps →
       RegInjective (runSteps (initFig fuel w rootId figId) steps).2) ∧
    (∀ (s : PlotWorld × RegMap) (steps : List RStep) (x : Nat) (q : String),
       regFind s.2 x = some q → regFind (runSteps s steps).2 x = some q) := by
  constructor
  · intro fuel w rootId figId steps hG
    exact (runSteps_inv steps (initFig fuel w rootId figId) rootId figId
      (initFig_inv fuel w rootId figId) hG).1
  · intro s steps x q h
    exact runSteps_mono steps s x q h

/-- C8 witness: the amended theorem applied to a concrete append-only run
(figure, then an axes appears and is scanned, then two lines appear and
are scanned), and a concrete lookup-stability instance. -/
theorem c8_path_uniqueness_amended_witness :
    GoodSteps c8w0 c8GoodSteps ∧
    RegInjective (runSteps (initFig 20 c8w0 1 0) c8GoodSteps).2 ∧
    (regFind (initFig 20 c8w0 1 0).2 1 = some "figs[0]" ∧
     regFind (runSteps (initFig 20 c8w0 1 0) c8GoodSteps).2 1 = some "figs[0]") :=
  ⟨c8GoodSteps_good,
   c8_path_uniqueness_amended.1 20 c8w0 1 0 c8GoodSteps c8GoodSteps_good,
   by decide,
   c8_path_uniqueness_amended.2 (initFig 20 c8w0 1 0) c8GoodSteps 1 "figs[0]" (by decide)⟩

end JPL3
